import Mathlib

/-!
Verification of the Audio-Transcriber repository's spec claims against a
shallow embedding of its TypeScript source (src/App.tsx,
src/services/geminiService.ts, src/unnamed/part_001).
-/

namespace AudioTranscriber

/-- `TranscriptItem` from src/types (as used throughout the code):
a timestamp string and a text string. -/
structure TranscriptItem where
  timestamp : String
  text : String
deriving DecidableEq, Repr

/-- A transcript is an ordered list of items (TS `TranscriptItem[]`). -/
abbrev Transcript := List TranscriptItem

/-! ## JSON values

`JSON.parse` in the services returns an arbitrary dynamically-typed JSON
value; we embed that value space so the (unchecked) `as TranscriptItem[]`
cast can be modelled faithfully: the runtime value flows through unchanged. -/

/-- Dynamically-typed JSON value, the result type of a successful
`JSON.parse`. Number precision is irrelevant to every claim, so numbers
are carried as `Int`. -/
inductive Json where
  | null : Json
  | bool (b : Bool) : Json
  | num (n : Int) : Json
  | str (s : String) : Json
  | arr (elems : List Json) : Json
  | obj (fields : List (String × Json)) : Json

/-- Field lookup on a JSON object (first binding wins, as in a parsed
JS object literal); `none` on non-objects or missing keys. -/
def Json.lookupField : Json → String → Option Json
  | .obj fields, key => fields.lookup key
  | _, _ => none

/-- Whether a JSON value is an object carrying a non-empty string
`timestamp` field and a non-empty string `text` field. -/
def conformingItem (j : Json) : Bool :=
  match j.lookupField "timestamp", j.lookupField "text" with
  | some (.str ts), some (.str tx) => !(ts == "") && !(tx == "")
  | _, _ => false

/-- Whether a parsed JSON value conforms to the transcript schema the spec
describes: an array of objects, each with non-empty `timestamp` and `text`
strings. -/
def conformsToTranscriptSchema (j : Json) : Bool :=
  match j with
  | .arr elems => elems.all conformingItem
  | _ => false

/-! ## Model Gateway response handling (src/services/geminiService.ts)

Each service function ends with

    const jsonString = response.text;
    const parsedJson = JSON.parse(jsonString);
    return parsedJson as TranscriptItem[];

inside a `try` whose `catch` rethrows a fixed human-readable message.
`JSON.parse` either throws (the response text is not valid JSON) or
produces a JSON value; the `as` cast performs no runtime check, so the
parsed value is returned unchanged whatever its shape. We embed the
response-handling stage as a function of `Option Json`: `none` models a
`JSON.parse` throw, `some j` a successful parse yielding `j`. -/

/-- Response handling of `generateTranscriptFromAudio`
(src/services/geminiService.ts lines 88-95). -/
def generateTranscriptFromAudioResponse (parsed : Option Json) : Except String Json :=
  match parsed with
  | none => .error "Failed to generate transcript from audio. The model may have returned an invalid format or the audio could not be processed. Please check the console for details."
  | some j => .ok j

/-- Response handling of `generateTranscriptFromText`
(second service version in the repository). -/
def generateTranscriptFromTextResponse (parsed : Option Json) : Except String Json :=
  match parsed with
  | none => .error "Failed to generate transcript. The model may have returned an invalid format. Please check the console for details."
  | some j => .ok j

/-- Response handling of `translateTranscript`
(src/services/geminiService.ts lines 204-211); the error message embeds the
target language. -/
def translateTranscriptResponse (language : String) (parsed : Option Json) : Except String Json :=
  match parsed with
  | none => .error ("Failed to translate to " ++ language ++ ". The model may have returned an invalid format. Please check the console for details.")
  | some j => .ok j

/-! ## Translate request construction (src/services/geminiService.ts lines 99-202)

`translateTranscript` serialises the input transcript, selects a
language-dependent instruction variant, and issues exactly one model call.
There is no emptiness check on the input: `[]` serialises to the empty
string and the request is issued all the same. -/

/-- Line 102: `transcript.map(item => item.timestamp + ' ' + item.text).join('\n')`. -/
def transcriptLines (transcript : Transcript) : String :=
  String.intercalate "\n" (transcript.map fun item => item.timestamp ++ " " ++ item.text)

/-- The language-dependent parts of the translation prompt, lines 104-164:
the target-language instruction, the special-instruction block, and the
example output embedded in the prompt. -/
structure PromptVariant where
  targetLanguageInstruction : String
  specialInstructions : String
  exampleOutput : String
deriving DecidableEq, Repr

/-- Lines 104-164 of `translateTranscript`: variant selection by language. -/
def promptVariantFor (language : String) : PromptVariant :=
  if language = "Malayalam" then
    { targetLanguageInstruction := "Manglish (Malayalam written phonetically using English letters)"
      specialInstructions := ""
      exampleOutput := "[ \x7b \"timestamp\": \"00:02-00:05\", \"text\": \"Hello, swagatham.\" \x7d, \x7b \"timestamp\": \"00:06-00:10\", \"text\": \"Nammal AI-ine kurichu charcha cheyyum.\" \x7d ]" }
  else if language = "Tamil (Tanglish)" then
    { targetLanguageInstruction := "Tanglish (conversational Tamil written phonetically using English letters)"
      specialInstructions := "IMPORTANT TANGLISH TRANSLATION RULE: - Translate into a natural, conversational style. - The output text must be written phonetically using English letters (Tanglish). - Do NOT translate common technical English words (e.g., AI, podcast, software, database). Keep them in English."
      exampleOutput := "[ \x7b \"timestamp\": \"00:02-00:05\", \"text\": \"Vanakkam matrum varaverkirom.\" \x7d, \x7b \"timestamp\": \"00:06-00:10\", \"text\": \"Naam AI patri vivaathippom.\" \x7d ]" }
  else if language = "Tamil (Script)" then
    { targetLanguageInstruction := "Tamil language using the Tamil script"
      specialInstructions := "IMPORTANT TRANSLATION RULE: - Translate into a natural, conversational Tamil. - The output text MUST be in the Tamil script."
      exampleOutput := "[ \x7b \"timestamp\": \"00:02-00:05\", \"text\": \"வணக்கம் மற்றும் வரவேற்கிறோம்.\" \x7d, \x7b \"timestamp\": \"00:06-00:10\", \"text\": \"நாம் AI பற்றி விவாதிப்போம்.\" \x7d ]" }
  else
    { targetLanguageInstruction := language
      specialInstructions := ""
      exampleOutput := "[ \x7b \"timestamp\": \"00:02-00:05\", \"text\": \"Hola y bienvenido.\" \x7d, \x7b \"timestamp\": \"00:06-00:10\", \"text\": \"Discutiremos la IA.\" \x7d ]" }

/-- One outbound model call as constructed by `translateTranscript`
(lines 166-202): model name, the selected prompt variant, and the
serialised transcript block embedded between the `---` markers. The fixed
template glue text around these parts is constant and claim-irrelevant. -/
structure TranslateRequest where
  model : String
  variant : PromptVariant
  transcriptBlock : String
deriving DecidableEq, Repr

/-- The pre-response phase of `translateTranscript` (lines 99-202): the
list of model calls it issues before any response arrives. The source has
no guard on `transcript` — exactly one request is always issued, with the
(possibly empty) serialised transcript embedded. -/
def translateTranscriptRequests (transcript : Transcript) (language : String) : List TranslateRequest :=
  [{ model := "gemini-2.5-flash"
     variant := promptVariantFor language
     transcriptBlock := transcriptLines transcript }]

/-- Full run of `translateTranscript` given the parsed model response:
the issued calls paired with the returned/thrown result. -/
def translateTranscriptRun (transcript : Transcript) (language : String)
    (parsed : Option Json) : List TranslateRequest × Except String Json :=
  (translateTranscriptRequests transcript language, translateTranscriptResponse language parsed)

/-! ## Workflow controller state (src/App.tsx lines 100-107, src/unnamed/part_001 lines 97-104)

The `App` component's React state hooks, as one record. `audioFile` carries
the file's name (the only attribute the claims touch); `none` models the
`null` states. -/

/-- The controller's session state. -/
structure AppState where
  audioFile : Option String
  transcript : Option Transcript
  translation : Option Transcript
  isLoading : Bool
  isTranslating : Bool
  error : String
  selectedLanguage : String
deriving DecidableEq, Repr

/-- The language catalog of src/App.tsx lines 10-53 (ids; each entry's
`name` equals its `id`). -/
def LANGUAGES : List String :=
  ["Arabic", "Bengali", "Chinese (Simplified)", "Chinese (Traditional)",
   "Czech", "Danish", "Dutch", "English", "Finnish", "French", "German",
   "Greek", "Gujarati", "Hebrew", "Hindi", "Hinglish", "Hungarian",
   "Indonesian", "Italian", "Japanese", "Kannada", "Korean", "Malayalam",
   "Marathi", "Norwegian", "Persian", "Polish", "Portuguese", "Punjabi",
   "Romanian", "Russian", "Slovak", "Spanish", "Swedish",
   "Tamil (Tanglish)", "Tamil (Script)", "Telugu", "Thai", "Turkish",
   "Ukrainian", "Urdu", "Vietnamese"]

/-- The initial hook values (src/App.tsx lines 101-107):
everything null/false/empty, `selectedLanguage = LANGUAGES[0].id`. -/
def initialState : AppState :=
  { audioFile := none
    transcript := none
    translation := none
    isLoading := false
    isTranslating := false
    error := ""
    selectedLanguage := LANGUAGES.headD "" }

/-- Result of one awaited service call as observed by the controller:
the promise either resolves with a transcript or rejects with an error
whose `.message` is carried here (`""` models a missing/empty message,
which the `catch` replaces through `||`). -/
inductive Outcome where
  | ok (t : Transcript) : Outcome
  | err (message : String) : Outcome
deriving DecidableEq, Repr

/-- `x.message || fallback` of the catch blocks. -/
def messageOr (message fallback : String) : String :=
  if message = "" then fallback else message

/-- A network call issued by `handleProcessAudio`, with its arguments. -/
inductive CallEvent where
  | transcribe (fileName : String) : CallEvent
  | translate (items : Transcript) (language : String) : CallEvent
deriving DecidableEq, Repr

/-- Which top-level branch of `handleProcessAudio` a run took:
the two validation early-returns, or the pipeline body. -/
inductive RunKind where
  | noFile : RunKind
  | noLanguage : RunKind
  | pipeline : RunKind
deriving DecidableEq, Repr

/-- One run of `handleProcessAudio`: the branch taken, the final state,
the calls issued (paired with the state at the moment each was issued),
and the observable state snapshots. React batches the synchronous state
updates between awaits, so a snapshot is the state at each await boundary
and at return; the final state is the last snapshot. -/
structure RunResult where
  kind : RunKind
  final : AppState
  calls : List (AppState × CallEvent)
  snapshots : List AppState
deriving Repr

/-- `handleProcessAudio` (src/App.tsx lines 109-147; textually identical in
src/unnamed/part_001 lines 106-144), as a function of the pre-state and the
two awaited outcomes:
* guard 1: no file selected → set the file validation message, return;
* guard 2: `!selectedLanguage` (empty string) → set the language
  validation message, return;
* otherwise reset (`isLoading := true`, `isTranslating := false`,
  `error := ''`, `transcript := null`, `translation := null`), await
  `generateTranscriptFromAudio`;
* on throw: set the error (message or transcription fallback), stop
  loading, return;
* on success: show the transcript, stop loading, start translating, await
  `translateTranscript(transcriptResult, selectedLanguage)`;
* on success set the translation, on throw set the error (message or
  translation fallback); `finally` stop translating. -/
def handleProcessAudio (s : AppState) (transcribeOut translateOut : Outcome) : RunResult :=
  match s.audioFile with
  | none =>
      let s' := { s with error := "Please select an audio file." }
      { kind := .noFile, final := s', calls := [], snapshots := [s'] }
  | some fileName =>
      if s.selectedLanguage = "" then
        let s' := { s with error := "Please select a language." }
        { kind := .noLanguage, final := s', calls := [], snapshots := [s'] }
      else
        let s1 := { s with isLoading := true, isTranslating := false,
                           error := "", transcript := none, translation := none }
        match transcribeOut with
        | .err m =>
            let s2 := { s1 with
              error := messageOr m "An unknown error occurred during transcription.",
              isLoading := false }
            { kind := .pipeline, final := s2,
              calls := [(s1, .transcribe fileName)], snapshots := [s1, s2] }
        | .ok transcriptResult =>
            let s2 := { s1 with transcript := some transcriptResult,
                                isLoading := false, isTranslating := true }
            match translateOut with
            | .ok translationResult =>
                let s3 := { s2 with translation := some translationResult,
                                    isTranslating := false }
                { kind := .pipeline, final := s3,
                  calls := [(s1, .transcribe fileName),
                            (s2, .translate transcriptResult s.selectedLanguage)],
                  snapshots := [s1, s2, s3] }
            | .err m =>
                let s3 := { s2 with
                  error := messageOr m "An unknown translation error occurred.",
                  isTranslating := false }
                { kind := .pipeline, final := s3,
                  calls := [(s1, .transcribe fileName),
                            (s2, .translate transcriptResult s.selectedLanguage)],
                  snapshots := [s1, s2, s3] }

/-! ## Reachable controller states

The UI lets exactly these operations act on the session state, and only
while no stage is in flight (`disabled={isLoading || isTranslating}` on the
uploader, the language select and the generate button): choosing or
clearing a file (`setAudioFile` via `AudioUploader`), choosing a language
from the catalog's `<option>` values, and running `handleProcessAudio`
(whose awaited outcomes are arbitrary). `handleSave` reads but never
writes this state. Mid-run await-boundary snapshots are observable states
and are therefore included. -/

/-- States the controller can be in, starting from the initial hook
values. -/
inductive Reachable : AppState → Prop where
  | init : Reachable initialState
  | selectFile (s : AppState) (f : Option String) :
      Reachable s → s.isLoading = false → s.isTranslating = false →
      Reachable { s with audioFile := f }
  | selectLanguage (s : AppState) (lang : String) :
      Reachable s → s.isLoading = false → s.isTranslating = false →
      lang ∈ LANGUAGES →
      Reachable { s with selectedLanguage := lang }
  | runStep (s s' : AppState) (transcribeOut translateOut : Outcome) :
      Reachable s → s.isLoading = false → s.isTranslating = false →
      s' ∈ (handleProcessAudio s transcribeOut translateOut).snapshots →
      Reachable s'

/-! ## Exporter: PDF save (src/App.tsx lines 149-210) -/

/-- Index of the last `'.'` in a character list, if any
(JS `String.prototype.lastIndexOf('.')`, with `none` for `-1`). -/
def lastDotIndex : List Char → Option Nat
  | [] => none
  | c :: cs =>
      match lastDotIndex cs with
      | some i => some (i + 1)
      | none => if c = '.' then some 0 else none

/-- Line 155: `originalFileName.substring(0, originalFileName.lastIndexOf('.')) || originalFileName`.
`lastIndexOf` yields `-1` when there is no dot; `substring(0, -1)` and
`substring(0, 0)` both yield `""`, which is falsy, so `||` falls back to
the whole name. (Character counting; the claims only involve BMP names,
where JS UTF-16 indices and characters agree.) -/
def jsBaseName (originalFileName : String) : String :=
  match lastDotIndex originalFileName.toList with
  | none => originalFileName
  | some 0 => originalFileName
  | some k => String.mk (originalFileName.toList.take k)

/-- `getTranslationTitle` (src/App.tsx lines 212-217). -/
def getTranslationTitle (selectedLanguage : String) : String :=
  if selectedLanguage = "Malayalam" then "Translation (Manglish)"
  else if selectedLanguage = "Tamil (Tanglish)" then "Translation (Tanglish)"
  else if selectedLanguage = "Tamil (Script)" then "Translation (Tamil Script)"
  else "Translation (" ++ selectedLanguage ++ ")"

/-- The PDF artifact `handleSave` builds through jsPDF, with the
claim-relevant observables: the saved file name, the VFS font files added,
the `(family, style)` font registrations, the `(family, style)` the title
is set in and the body is set in, the title text and the body text. -/
structure PdfArtifact where
  fileName : String
  vfsFontFiles : List String
  fontRegistrations : List (String × String)
  titleFont : String × String
  bodyFont : String × String
  title : String
  body : String
deriving DecidableEq, Repr

/-- The PDF construction of `handleSave` (src/App.tsx lines 153-209):
`_translation.pdf` file name from the audio file's base name; when
`selectedLanguage === 'Tamil (Script)'` the embedded `NotoSansTamil` font
file is added to the VFS and registered for both the `normal` and `bold`
styles, and `setDocFont` selects it, otherwise `helvetica`; the title is
drawn bold, the body normal; the body is the translation's
`[timestamp] text` lines joined by newlines. -/
def buildPdf (audioFileName selectedLanguage : String) (translation : Transcript) : PdfArtifact :=
  let baseName := jsBaseName audioFileName
  let fileName := baseName ++ "_translation.pdf"
  let isTamilScript := selectedLanguage = "Tamil (Script)"
  let fontName := if isTamilScript then "NotoSansTamil" else "helvetica"
  { fileName := fileName
    vfsFontFiles := if isTamilScript then ["NotoSansTamil-Regular.ttf"] else []
    fontRegistrations :=
      if isTamilScript then [("NotoSansTamil", "normal"), ("NotoSansTamil", "bold")] else []
    titleFont := (fontName, "bold")
    bodyFont := (fontName, "normal")
    title := getTranslationTitle selectedLanguage
    body := String.intercalate "\n"
      (translation.map fun item => "[" ++ item.timestamp ++ "] " ++ item.text) }

/-- `handleSave` (src/App.tsx lines 149-210): early return (no artifact,
no state change — the function never writes any state hook) unless both
`translation` and `audioFile` are set; otherwise build and save the PDF. -/
def handleSave (s : AppState) : Option PdfArtifact :=
  match s.translation, s.audioFile with
  | some translation, some audioFileName =>
      some (buildPdf audioFileName s.selectedLanguage translation)
  | _, _ => none

/-! ## Exporter: text save (src/unnamed/part_001 lines 146-179) -/

/-- Whether a character is an ASCII letter or digit — the class
`[a-z0-9]` under the regex's `i` flag (code points 97-122, 65-90,
48-57). -/
def isAsciiAlnum (c : Char) : Bool :=
  (97 ≤ c.toNat && c.toNat ≤ 122) || (65 ≤ c.toNat && c.toNat ≤ 90) ||
    (48 ≤ c.toNat && c.toNat ≤ 57)

/-- JS `toLowerCase` on the characters the sanitizer can produce: ASCII
uppercase letters (code points 65-90) shift down by 32, every other
character is unchanged. -/
def jsToLower (c : Char) : Char :=
  if 65 ≤ c.toNat && c.toNat ≤ 90 then Char.ofNat (c.toNat + 32) else c

/-- Line 171: `selectedLanguage.replace(/[^a-z0-9]/gi, '_').toLowerCase()` —
every character outside `[A-Za-z0-9]` is replaced by `'_'` (not removed),
then the result is lowercased. -/
def safeLanguage (selectedLanguage : String) : String :=
  String.mk (((selectedLanguage.toList.map fun c => if isAsciiAlnum c then c else '_').map jsToLower))

/-- Modelled from the spec (for comparison with `safeLanguage`, which is
the code's sanitizer): "sanitization strips the characters outside
`[A-Za-z0-9_]` and lowercases the result" — remove the disallowed
characters, keep the rest, lowercase. -/
def specSanitize (selectedLanguage : String) : String :=
  String.mk ((selectedLanguage.toList.filter fun c => isAsciiAlnum c || c = '_').map jsToLower)

/-- One labeled block of the text export (`formatContent`, lines 151-157):
the title, a blank line, then one `[timestamp] text` line per item. -/
def formatContent (title : String) (items : Transcript) : String :=
  title ++ "\n\n" ++
    String.join (items.map fun item => "[" ++ item.timestamp ++ "] " ++ item.text ++ "\n")

/-- The text artifact `handleSave` of src/unnamed/part_001 downloads. -/
structure TextArtifact where
  fileName : String
  content : String
deriving DecidableEq, Repr

/-- `handleSave` (src/unnamed/part_001 lines 146-179): early return unless
both `transcript` and `translation` are set; otherwise a single text file
with both labeled blocks separated by a divider, named
`transcript-<sanitized language>.txt`. -/
def handleSaveText (s : AppState) : Option TextArtifact :=
  match s.transcript, s.translation with
  | some transcript, some translation =>
      let originalContent := formatContent "Generated Transcript (English)" transcript
      let translationTitle :=
        "Translation (" ++ (if s.selectedLanguage = "Malayalam" then "Manglish" else s.selectedLanguage) ++ ")"
      let translatedContent := formatContent translationTitle translation
      some { fileName := "transcript-" ++ safeLanguage s.selectedLanguage ++ ".txt"
             content := originalContent ++ "\n\n---\n\n" ++ translatedContent }
  | _, _ => none

/-! ## Helper lemmas -/

/-- Every state snapshot a `handleProcessAudio` run can expose keeps the
selected language and the audio file of the pre-state, and preserves the
translation-implies-transcript invariant. -/
lemma mem_snapshots_props (s : AppState) (o1 o2 : Outcome) (s' : AppState)
    (hmem : s' ∈ (handleProcessAudio s o1 o2).snapshots) :
    s'.selectedLanguage = s.selectedLanguage ∧
    s'.audioFile = s.audioFile ∧
    ((s.translation ≠ none → s.transcript ≠ none) →
      (s'.translation ≠ none → s'.transcript ≠ none)) := by
  rcases haf : s.audioFile with _ | fileName <;>
    simp only [handleProcessAudio, haf] at hmem
  · simp only [List.mem_singleton] at hmem
    subst hmem
    simp [haf]
  · by_cases hl : s.selectedLanguage = "" <;>
      simp only [hl, if_true, if_false, reduceIte] at hmem
    · simp only [List.mem_singleton] at hmem
      subst hmem
      simp [haf, hl]
    · cases o1 with
      | err m =>
          simp only [List.mem_cons, List.mem_singleton, List.not_mem_nil, or_false] at hmem
          rcases hmem with hmem | hmem <;> subst hmem <;> simp [haf]
      | ok t =>
          cases o2 with
          | ok t2 =>
              simp only [List.mem_cons, List.mem_singleton, List.not_mem_nil, or_false] at hmem
              rcases hmem with hmem | hmem | hmem <;> subst hmem <;> simp [haf]
          | err m =>
              simp only [List.mem_cons, List.mem_singleton, List.not_mem_nil, or_false] at hmem
              rcases hmem with hmem | hmem | hmem <;> subst hmem <;> simp [haf]

/-- Reachable states satisfy the session invariant: a translation is only
ever present together with a source transcript. -/
lemma reachable_inv (s : AppState) (h : Reachable s) :
    s.translation ≠ none → s.transcript ≠ none := by
  induction h with
  | init => intro hc; exact absurd rfl hc
  | selectFile s f _ _ _ ih => simpa using ih
  | selectLanguage s lang _ _ _ _ ih => simpa using ih
  | runStep s s' o1 o2 _ _ _ hmem ih =>
      exact (mem_snapshots_props s o1 o2 s' hmem).2.2 ih

/-- Reachable states carry a selected language drawn from the catalog. -/
lemma reachable_language_mem (s : AppState) (h : Reachable s) :
    s.selectedLanguage ∈ LANGUAGES := by
  induction h with
  | init => decide
  | selectFile s f _ _ _ ih => simpa using ih
  | selectLanguage s lang _ _ _ hmem _ => simpa using hmem
  | runStep s s' o1 o2 _ _ _ hmem ih =>
      rw [(mem_snapshots_props s o1 o2 s' hmem).1]; exact ih

/-- Every catalog identifier is non-empty. -/
lemma languages_nonempty : ∀ l ∈ LANGUAGES, l ≠ "" := by decide

/-! ## Claim C1 -/

/-- Claim C1 counterexample: the model response `"{}"` parses to the JSON
object `{}`, which is not an array of conforming items, yet
`generateTranscriptFromAudio` raises no format error — it returns the
parsed value unchanged (the `as TranscriptItem[]` cast checks nothing). -/
theorem c1_counterexample_unvalidated_value_returned :
    generateTranscriptFromAudioResponse (some (Json.obj [])) = Except.ok (Json.obj []) ∧
    conformsToTranscriptSchema (Json.obj []) = false :=
  ⟨rfl, rfl⟩

/-- Claim C1 amended: `generateTranscriptFromAudio`,
`generateTranscriptFromText` and `translateTranscript` fail with their
format-error message exactly when the response string is not valid JSON
(`JSON.parse` throws); every successfully parsed value — conforming to the
transcript schema or not — is returned unchanged, with no shape or
non-emptiness validation. -/
theorem c1_amended_fail_only_on_parse_failure (j : Json) (language : String) :
    generateTranscriptFromAudioResponse (some j) = Except.ok j ∧
    generateTranscriptFromTextResponse (some j) = Except.ok j ∧
    translateTranscriptResponse language (some j) = Except.ok j ∧
    generateTranscriptFromAudioResponse none =
      Except.error "Failed to generate transcript from audio. The model may have returned an invalid format or the audio could not be processed. Please check the console for details." ∧
    generateTranscriptFromTextResponse none =
      Except.error "Failed to generate transcript. The model may have returned an invalid format. Please check the console for details." ∧
    translateTranscriptResponse language none =
      Except.error ("Failed to translate to " ++ language ++ ". The model may have returned an invalid format. Please check the console for details.") :=
  ⟨rfl, rfl, rfl, rfl, rfl, rfl⟩

/-! ## Claim C5 -/

/-- Claim C5 counterexample: for the empty transcript `translateTranscript`
does not signal an invalid-input error — it issues one model request (with
an empty serialised transcript block) and, on a parsed response, returns it
normally. -/
theorem c5_counterexample_empty_transcript_issues_request :
    (translateTranscriptRun [] "Spanish" (some (Json.arr []))).1.length = 1 ∧
    (translateTranscriptRun [] "Spanish" (some (Json.arr []))).1.map
      TranslateRequest.transcriptBlock = [""] ∧
    (translateTranscriptRun [] "Spanish" (some (Json.arr []))).2 = Except.ok (Json.arr []) :=
  ⟨rfl, rfl, rfl⟩

/-- Claim C5 amended: `translateTranscript` performs no emptiness check —
for every input transcript, the empty one included, it issues exactly one
model request embedding the serialised transcript (the empty string for
`[]`), and the only error it can signal is the response-stage translation
error; no invalid-input error exists before the request. -/
theorem c5_amended_no_empty_check (t : Transcript) (language : String) (j : Json) :
    (translateTranscriptRun t language (some j)).1.length = 1 ∧
    (translateTranscriptRun t language (some j)).1.map TranslateRequest.transcriptBlock =
      [transcriptLines t] ∧
    (translateTranscriptRun t language (some j)).2 = Except.ok j ∧
    transcriptLines [] = "" :=
  ⟨rfl, rfl, rfl, rfl⟩

/-! ## Claim C7 -/

/-- Claim C7: every PDF export uses the embedded `NotoSansTamil` font —
registered for both the `normal` and the `bold` style — for title and body
when the selected language is `Tamil (Script)`, and `helvetica` otherwise;
the file is named after the audio file's base name with the
`_translation.pdf` suffix. -/
theorem c7_pdf_font_and_filename (s : AppState) (a : PdfArtifact)
    (h : handleSave s = some a) :
    ∃ audioFileName, s.audioFile = some audioFileName ∧
      a.titleFont =
        ((if s.selectedLanguage = "Tamil (Script)" then "NotoSansTamil" else "helvetica"), "bold") ∧
      a.bodyFont =
        ((if s.selectedLanguage = "Tamil (Script)" then "NotoSansTamil" else "helvetica"), "normal") ∧
      a.fontRegistrations =
        (if s.selectedLanguage = "Tamil (Script)" then
          [("NotoSansTamil", "normal"), ("NotoSansTamil", "bold")] else []) ∧
      a.vfsFontFiles =
        (if s.selectedLanguage = "Tamil (Script)" then ["NotoSansTamil-Regular.ttf"] else []) ∧
      a.fileName = jsBaseName audioFileName ++ "_translation.pdf" := by
  rcases htl : s.translation with _ | translation <;>
    rcases haf : s.audioFile with _ | audioFileName <;>
      simp only [handleSave, htl, haf] at h
  · exact Option.noConfusion h
  · exact Option.noConfusion h
  · exact Option.noConfusion h
  · obtain rfl : buildPdf audioFileName s.selectedLanguage translation = a :=
      Option.some.inj h
    exact ⟨audioFileName, rfl, rfl, rfl, rfl, rfl, rfl⟩

/-- Claim C7 witness: a Tamil-script export from a concrete state. -/
theorem c7_pdf_font_and_filename_witness :
    handleSave
      { audioFile := some "talk.mp3", transcript := some [], translation := some [],
        isLoading := false, isTranslating := false, error := "",
        selectedLanguage := "Tamil (Script)" } =
      some (buildPdf "talk.mp3" "Tamil (Script)" []) ∧
    (∃ audioFileName,
      ({ audioFile := some "talk.mp3", transcript := some [], translation := some [],
         isLoading := false, isTranslating := false, error := "",
         selectedLanguage := "Tamil (Script)" } : AppState).audioFile = some audioFileName ∧
      (buildPdf "talk.mp3" "Tamil (Script)" []).titleFont =
        ((if ("Tamil (Script)" : String) = "Tamil (Script)" then "NotoSansTamil" else "helvetica"), "bold") ∧
      (buildPdf "talk.mp3" "Tamil (Script)" []).bodyFont =
        ((if ("Tamil (Script)" : String) = "Tamil (Script)" then "NotoSansTamil" else "helvetica"), "normal") ∧
      (buildPdf "talk.mp3" "Tamil (Script)" []).fontRegistrations =
        (if ("Tamil (Script)" : String) = "Tamil (Script)" then
          [("NotoSansTamil", "normal"), ("NotoSansTamil", "bold")] else []) ∧
      (buildPdf "talk.mp3" "Tamil (Script)" []).vfsFontFiles =
        (if ("Tamil (Script)" : String) = "Tamil (Script)" then ["NotoSansTamil-Regular.ttf"] else []) ∧
      (buildPdf "talk.mp3" "Tamil (Script)" []).fileName =
        jsBaseName audioFileName ++ "_translation.pdf") :=
  ⟨rfl, c7_pdf_font_and_filename
    { audioFile := some "talk.mp3", transcript := some [], translation := some [],
      isLoading := false, isTranslating := false, error := "",
      selectedLanguage := "Tamil (Script)" }
    (buildPdf "talk.mp3" "Tamil (Script)" []) rfl⟩

/-! ## Claim C8 -/

/-- Claim C8 counterexample: the code's sanitizer replaces the characters
outside `[A-Za-z0-9]` with underscores instead of stripping them — on
`"Chinese (Simplified)"` it yields `"chinese__simplified_"`, not the
stripped `"chinesesimplified"` the claim describes. -/
theorem c8_counterexample_replaces_not_strips :
    safeLanguage "Chinese (Simplified)" = "chinese__simplified_" ∧
    specSanitize "Chinese (Simplified)" = "chinesesimplified" ∧
    safeLanguage "Chinese (Simplified)" ≠ specSanitize "Chinese (Simplified)" :=
  ⟨rfl, rfl, by decide⟩

/-- `Char.ofNat` of a small code point round-trips through `toNat`. -/
lemma char_toNat_ofNat_small (n : Nat) (h : n < 55296) : (Char.ofNat n).toNat = n := by
  rw [Char.ofNat, dif_pos (Or.inl h)]
  rfl

/-- Pointwise behavior of the sanitizer: every character it emits is a
lowercase ASCII letter, a digit, or an underscore. -/
lemma sanitized_char_allowed (c : Char) :
    ((97 ≤ (jsToLower (if isAsciiAlnum c then c else '_')).toNat &&
        (jsToLower (if isAsciiAlnum c then c else '_')).toNat ≤ 122) ||
      (48 ≤ (jsToLower (if isAsciiAlnum c then c else '_')).toNat &&
        (jsToLower (if isAsciiAlnum c then c else '_')).toNat ≤ 57) ||
      (jsToLower (if isAsciiAlnum c then c else '_')).toNat == 95) = true := by
  by_cases h : isAsciiAlnum c = true
  · rw [if_pos h]
    simp only [isAsciiAlnum, Bool.or_eq_true, Bool.and_eq_true, decide_eq_true_eq] at h
    by_cases hU : 65 ≤ c.toNat ∧ c.toNat ≤ 90
    · have hlow : jsToLower c = Char.ofNat (c.toNat + 32) := by
        simp [jsToLower, hU.1, hU.2]
      rw [hlow, char_toNat_ofNat_small (c.toNat + 32) (by omega)]
      simp only [Bool.or_eq_true, Bool.and_eq_true, decide_eq_true_eq, beq_iff_eq]
      omega
    · have hlow : jsToLower c = c := by
        simp only [jsToLower, Bool.and_eq_true, decide_eq_true_eq]
        rw [if_neg]
        intro hc
        exact hU hc
      rw [hlow]
      simp only [Bool.or_eq_true, Bool.and_eq_true, decide_eq_true_eq, beq_iff_eq]
      omega
  · rw [if_neg h]
    decide

/-- Claim C8 amended: the sanitization replaces (rather than strips) each
character outside `[A-Za-z0-9]` with an underscore and lowercases the
result: the output has exactly the length of the input and consists only
of lowercase ASCII letters (code points 97-122), digits (48-57) and
underscores (95). -/
theorem c8_amended_replace_and_lowercase (language : String) :
    (safeLanguage language).length = language.length ∧
    (safeLanguage language).toList.all
      (fun c => (97 ≤ c.toNat && c.toNat ≤ 122) || (48 ≤ c.toNat && c.toNat ≤ 57) ||
        c.toNat == 95) = true := by
  constructor
  · have h1 : (safeLanguage language).length =
        ((language.toList.map fun c => if isAsciiAlnum c then c else '_').map jsToLower).length :=
      rfl
    rw [h1]
    simp only [List.length_map]
    rfl
  · have h2 : (safeLanguage language).toList =
        (language.toList.map fun c => if isAsciiAlnum c then c else '_').map jsToLower :=
      rfl
    rw [h2]
    simp only [List.all_map, List.all_eq_true]
    intro c _
    exact sanitized_char_allowed c

/-! ## Claim C2 -/

/-- Claim C2: in every run of `handleProcessAudio`, a `translateTranscript`
call is present only when `generateTranscriptFromAudio` resolved
successfully in that same run — and then the run's calls are exactly the
transcribe call followed by the translate call carrying the transcribe
result. In particular, when the transcribe call throws (`Outcome.err`),
no translate call exists in the run. -/
theorem c2_translate_only_after_transcribe
    (s : AppState) (transcribeOut translateOut : Outcome)
    (pre : AppState) (items : Transcript) (language : String)
    (hmem : (pre, CallEvent.translate items language) ∈
      (handleProcessAudio s transcribeOut translateOut).calls) :
    ∃ fileName pre1, transcribeOut = Outcome.ok items ∧
      (handleProcessAudio s transcribeOut translateOut).calls =
        [(pre1, CallEvent.transcribe fileName),
         (pre, CallEvent.translate items language)] := by
  rcases haf : s.audioFile with _ | fileName <;>
    simp only [handleProcessAudio, haf] at hmem ⊢
  · simp at hmem
  · by_cases hl : s.selectedLanguage = "" <;> simp only [hl, reduceIte] at hmem ⊢
    · simp at hmem
    · cases transcribeOut with
      | err m => simp [Prod.ext_iff] at hmem
      | ok t =>
          cases translateOut with
          | ok t2 =>
              simp only [List.mem_cons, List.not_mem_nil, or_false,
                Prod.mk.injEq, CallEvent.translate.injEq, reduceCtorEq,
                and_false, false_or] at hmem
              obtain ⟨hpre, hitems, hlang⟩ := hmem
              subst hpre; subst hitems; subst hlang
              exact ⟨fileName, _, rfl, rfl⟩
          | err m =>
              simp only [List.mem_cons, List.not_mem_nil, or_false,
                Prod.mk.injEq, CallEvent.translate.injEq, reduceCtorEq,
                and_false, false_or] at hmem
              obtain ⟨hpre, hitems, hlang⟩ := hmem
              subst hpre; subst hitems; subst hlang
              exact ⟨fileName, _, rfl, rfl⟩

/-- Claim C2 witness: a concrete successful run issues the translate call
after the transcribe call, with the transcribe result. -/
theorem c2_translate_only_after_transcribe_witness :
    ((⟨some "a.mp3", some [⟨"00:00-00:01", "hi"⟩], none, false, true, "", "Arabic"⟩,
        CallEvent.translate [⟨"00:00-00:01", "hi"⟩] "Arabic") ∈
      (handleProcessAudio
        { audioFile := some "a.mp3", transcript := none, translation := none,
          isLoading := false, isTranslating := false, error := "",
          selectedLanguage := "Arabic" }
        (Outcome.ok [⟨"00:00-00:01", "hi"⟩]) (Outcome.ok [])).calls) ∧
    (∃ fileName pre1, Outcome.ok [(⟨"00:00-00:01", "hi"⟩ : TranscriptItem)] =
        Outcome.ok [⟨"00:00-00:01", "hi"⟩] ∧
      (handleProcessAudio
        { audioFile := some "a.mp3", transcript := none, translation := none,
          isLoading := false, isTranslating := false, error := "",
          selectedLanguage := "Arabic" }
        (Outcome.ok [⟨"00:00-00:01", "hi"⟩]) (Outcome.ok [])).calls =
        [(pre1, CallEvent.transcribe fileName),
         (⟨some "a.mp3", some [⟨"00:00-00:01", "hi"⟩], none, false, true, "", "Arabic"⟩,
          CallEvent.translate [⟨"00:00-00:01", "hi"⟩] "Arabic")]) :=
  ⟨by decide, c2_translate_only_after_transcribe _ _ _ _ _ _ (by decide)⟩

/-! ## Claim C3 -/

/-- Claim C3: when transcription succeeds with `t` and translation then
fails, the run ends with the source transcript still `t` (not cleared or
rolled back), the translation absent, loading and translating flags off,
and the error set — and the final state differs from the state at the
moment the translate call was issued only in the error message and the
translating flag. -/
theorem c3_partial_success_preserved
    (s : AppState) (fileName : String) (t : Transcript) (m : String)
    (hf : s.audioFile = some fileName) (hl : s.selectedLanguage ≠ "") :
    (handleProcessAudio s (Outcome.ok t) (Outcome.err m)).final =
      { s with transcript := some t, translation := none,
               error := messageOr m "An unknown translation error occurred.",
               isLoading := false, isTranslating := false } ∧
    (∀ pre items language,
      (pre, CallEvent.translate items language) ∈
        (handleProcessAudio s (Outcome.ok t) (Outcome.err m)).calls →
      (handleProcessAudio s (Outcome.ok t) (Outcome.err m)).final =
        { pre with error := messageOr m "An unknown translation error occurred.",
                   isTranslating := false }) := by
  simp only [handleProcessAudio, hf, if_neg hl]
  refine ⟨by first | rfl | trivial, ?_⟩
  intro pre items language hmem
  simp only [List.mem_cons, List.not_mem_nil, or_false, Prod.mk.injEq,
    CallEvent.translate.injEq, reduceCtorEq, and_false, false_or] at hmem
  obtain ⟨hpre, -, -⟩ := hmem
  subst hpre
  rfl

/-- Claim C3 witness: a concrete run whose translation stage fails keeps
the transcript produced by the transcription stage. -/
theorem c3_partial_success_preserved_witness :
    (({ audioFile := some "a.mp3", transcript := none, translation := none,
        isLoading := false, isTranslating := false, error := "old",
        selectedLanguage := "Arabic" } : AppState).audioFile = some "a.mp3") ∧
    (({ audioFile := some "a.mp3", transcript := none, translation := none,
        isLoading := false, isTranslating := false, error := "old",
        selectedLanguage := "Arabic" } : AppState).selectedLanguage ≠ "") ∧
    (handleProcessAudio
      { audioFile := some "a.mp3", transcript := none, translation := none,
        isLoading := false, isTranslating := false, error := "old",
        selectedLanguage := "Arabic" }
      (Outcome.ok [⟨"00:00-00:01", "hi"⟩]) (Outcome.err "boom")).final =
      { audioFile := some "a.mp3", transcript := some [⟨"00:00-00:01", "hi"⟩],
        translation := none, isLoading := false, isTranslating := false,
        error := "boom", selectedLanguage := "Arabic" } :=
  ⟨rfl, by decide,
    (c3_partial_success_preserved _ "a.mp3" [⟨"00:00-00:01", "hi"⟩] "boom" rfl
      (by decide)).1⟩

/-! ## Claim C4 -/

/-- Claim C4: every run that passes both input guards clears the source
transcript, the translation and the error message before the first (and
thus before any) network call is issued: the state at which the
transcribe call — the head of the run's call list — is issued has
`transcript = null`, `translation = null`, `error = ''`. -/
theorem c4_cleared_before_first_call
    (s : AppState) (transcribeOut translateOut : Outcome) (fileName : String)
    (hf : s.audioFile = some fileName) (hl : s.selectedLanguage ≠ "") :
    ∃ pre rest,
      (handleProcessAudio s transcribeOut translateOut).calls =
        (pre, CallEvent.transcribe fileName) :: rest ∧
      pre.transcript = none ∧ pre.translation = none ∧ pre.error = "" := by
  simp only [handleProcessAudio, hf, if_neg hl]
  cases transcribeOut with
  | err m => exact ⟨_, _, rfl, rfl, rfl, rfl⟩
  | ok t =>
      cases translateOut with
      | ok t2 => exact ⟨_, _, rfl, rfl, rfl, rfl⟩
      | err m => exact ⟨_, _, rfl, rfl, rfl, rfl⟩

/-- Claim C4 witness: a concrete guarded run whose first call is issued
from the cleared state. -/
theorem c4_cleared_before_first_call_witness :
    (({ audioFile := some "a.mp3", transcript := some [⟨"00:00-00:01", "old"⟩],
        translation := some [⟨"00:00-00:01", "alt"⟩], isLoading := false,
        isTranslating := false, error := "old error",
        selectedLanguage := "Arabic" } : AppState).audioFile = some "a.mp3") ∧
    (({ audioFile := some "a.mp3", transcript := some [⟨"00:00-00:01", "old"⟩],
        translation := some [⟨"00:00-00:01", "alt"⟩], isLoading := false,
        isTranslating := false, error := "old error",
        selectedLanguage := "Arabic" } : AppState).selectedLanguage ≠ "") ∧
    (∃ pre rest,
      (handleProcessAudio
        { audioFile := some "a.mp3", transcript := some [⟨"00:00-00:01", "old"⟩],
          translation := some [⟨"00:00-00:01", "alt"⟩], isLoading := false,
          isTranslating := false, error := "old error",
          selectedLanguage := "Arabic" }
        (Outcome.ok [⟨"00:00-00:01", "hi"⟩]) (Outcome.ok [])).calls =
        (pre, CallEvent.transcribe "a.mp3") :: rest ∧
      pre.transcript = none ∧ pre.translation = none ∧ pre.error = "") :=
  ⟨rfl, by decide,
    c4_cleared_before_first_call _ (Outcome.ok [⟨"00:00-00:01", "hi"⟩])
      (Outcome.ok []) "a.mp3" rfl (by decide)⟩

/-! ## Claim C6 -/

/-- Claim C6: in every reachable controller state, the export action is a
no-op — it produces no artifact, and it never writes state (both save
handlers only read the state record, as their `Option`-returning embedding
reflects) — whenever the source transcript or the translation is absent;
an artifact is produced only when both are present. Covers both save
handlers: the PDF one (src/App.tsx, whose guard checks `translation` and
`audioFile`; absence of the transcript is covered through the session
invariant) and the text one (src/unnamed/part_001, whose guard checks
`transcript` and `translation` directly). -/
theorem c6_save_requires_both (s : AppState) (h : Reachable s) :
    ((s.transcript = none ∨ s.translation = none) →
      handleSave s = none ∧ handleSaveText s = none) ∧
    (handleSave s ≠ none → s.transcript ≠ none ∧ s.translation ≠ none) ∧
    (handleSaveText s ≠ none → s.transcript ≠ none ∧ s.translation ≠ none) := by
  have hinv := reachable_inv s h
  rcases htr : s.transcript with _ | tr <;> rcases htl : s.translation with _ | tl
  · refine ⟨fun _ => ⟨?_, ?_⟩, fun hc => absurd ?_ hc, fun hc => absurd ?_ hc⟩ <;>
      simp [handleSave, handleSaveText, htr, htl]
  · exact absurd htr (hinv (by simp [htl]))
  · refine ⟨fun _ => ⟨?_, ?_⟩, fun hc => absurd ?_ hc, fun hc => absurd ?_ hc⟩ <;>
      simp [handleSave, handleSaveText, htr, htl]
  · refine ⟨fun hdisj => ?_, fun _ => ⟨by simp [htr], by simp [htl]⟩,
      fun _ => ⟨by simp [htr], by simp [htl]⟩⟩
    rcases hdisj with h1 | h1
    · exact Option.noConfusion h1
    · exact Option.noConfusion h1

/-- Claim C6 witness: in the initial state (both transcripts absent), both
save handlers produce nothing. -/
theorem c6_save_requires_both_witness :
    (initialState.transcript = none ∨ initialState.translation = none) ∧
    (handleSave initialState = none ∧ handleSaveText initialState = none) :=
  ⟨Or.inl rfl, (c6_save_requires_both initialState Reachable.init).1 (Or.inl rfl)⟩

/-! ## Claim C9 -/

/-- Claim C9: invariant kept by every controller operation — whenever the
translation state is non-null, the source transcript state is non-null as
well. Both are cleared together at the start of a run, and a translation
is only set after the transcript produced in the same run. -/
theorem c9_translation_implies_transcript (s : AppState) (h : Reachable s) :
    s.translation ≠ none → s.transcript ≠ none :=
  reachable_inv s h

/-- Claim C9 witness: a reachable state holding a translation also holds a
transcript (reached by selecting a file and running both stages to
success). -/
theorem c9_translation_implies_transcript_witness :
    Reachable (⟨some "a.mp3", some [⟨"00:00-00:01", "hi"⟩],
      some [⟨"00:00-00:01", "hola"⟩], false, false, "", "Arabic"⟩ : AppState) ∧
    ((⟨some "a.mp3", some [⟨"00:00-00:01", "hi"⟩],
      some [⟨"00:00-00:01", "hola"⟩], false, false, "", "Arabic"⟩ : AppState).translation ≠ none) ∧
    ((⟨some "a.mp3", some [⟨"00:00-00:01", "hi"⟩],
      some [⟨"00:00-00:01", "hola"⟩], false, false, "", "Arabic"⟩ : AppState).transcript ≠ none) := by
  have hsA : Reachable (⟨some "a.mp3", none, none, false, false, "", "Arabic"⟩ : AppState) :=
    Reachable.selectFile initialState (some "a.mp3") Reachable.init rfl rfl
  have hmem : (⟨some "a.mp3", some [⟨"00:00-00:01", "hi"⟩],
      some [⟨"00:00-00:01", "hola"⟩], false, false, "", "Arabic"⟩ : AppState) ∈
      (handleProcessAudio (⟨some "a.mp3", none, none, false, false, "", "Arabic"⟩ : AppState)
        (Outcome.ok [⟨"00:00-00:01", "hi"⟩])
        (Outcome.ok [⟨"00:00-00:01", "hola"⟩])).snapshots := by decide
  have hr := Reachable.runStep _ _ _ _ hsA rfl rfl hmem
  exact ⟨hr, by decide, c9_translation_implies_transcript _ hr (by decide)⟩

/-! ## Claim C10 -/

/-- Claim C10: the missing-language validation branch of
`handleProcessAudio` is unreachable — `selectedLanguage` starts at the
catalog's first identifier and is only ever reassigned to catalog
identifiers, all non-empty, so no run from a reachable state takes the
`noLanguage` branch (which alone raises 'Please select a language.'). -/
theorem c10_missing_language_branch_unreachable
    (s : AppState) (transcribeOut translateOut : Outcome) (h : Reachable s) :
    s.selectedLanguage ≠ "" ∧
    (handleProcessAudio s transcribeOut translateOut).kind ≠ RunKind.noLanguage := by
  have hne : s.selectedLanguage ≠ "" :=
    languages_nonempty _ (reachable_language_mem s h)
  refine ⟨hne, ?_⟩
  rcases haf : s.audioFile with _ | fileName <;>
    simp only [handleProcessAudio, haf]
  · simp
  · rw [if_neg hne]
    cases transcribeOut with
    | err m => simp
    | ok t =>
        cases translateOut with
        | ok t2 => simp
        | err m => simp

/-- Claim C10 witness: from the initial state (language 'Arabic'), a run
never takes the missing-language branch. -/
theorem c10_missing_language_branch_unreachable_witness :
    initialState.selectedLanguage ≠ "" ∧
    (handleProcessAudio initialState (Outcome.ok []) (Outcome.ok [])).kind ≠
      RunKind.noLanguage :=
  c10_missing_language_branch_unreachable initialState (Outcome.ok []) (Outcome.ok [])
    Reachable.init

end AudioTranscriber
